import Mathlib

/-!
# Verification of the resorr-swot reservoir-network builder and surface-area filter

Shallow embedding of src/resorr/generate_network.py (flow-direction tracing,
reservoir snapping, graph assembly, elevation enrichment) and of the head and
second correction step of src/sarath_filtering.py, together with proofs and
refutations of the specification claims about them.

Modelling conventions:
* a raster band opened with masked=True holds either a number or NaN; a cell is
  modelled as Option values (none = NaN / no-data);
* DataArray.isel with integer indices follows numpy positional indexing: an
  index i with -n <= i < 0 silently wraps to n + i, an index outside [-n, n)
  raises IndexError; the model returns none for the IndexError case;
* pandas Index.get_indexer(method="nearest") returns the position of the axis
  value closest to the query, clamping queries outside the axis range; it never
  fails on a nonempty axis;
* the Python while loop is modelled with explicit fuel; TraceResult.fuelOut is
  the ran-out-of-fuel marker and is unreachable for fuel >= 4 * ny * nx
  (lemma traceLoop_ne_fuelOut below justifies the fuel used by the model).
-/

namespace Resorr

/-- Outcome of one downstream trace of generate_network (lines 111-162).
cycle: the next cell was already in the visited list (loop detected, line 132);
nodata: a NaN flow-direction value was read (line 125 or line 140);
edge t: a reservoir id t was found in the location raster (line 149);
caughtOob: the except IndexError handler at line 159 fired;
err: an exception propagated uncaught (IndexError from the flow-direction
lookup at line 139, or KeyError from the operations table at line 128);
fuelOut: model-only marker that the fuel ran out. -/
inductive TraceResult where
  | cycle : TraceResult
  | nodata : TraceResult
  | edge : ℕ → TraceResult
  | caughtOob : TraceResult
  | err : TraceResult
  | fuelOut : TraceResult
deriving DecidableEq, Repr

/-- A single-band raster: ny rows, nx columns, and the cell contents, read as
data row col (row = y index = latitude axis, col = x index = longitude axis),
meaningful for row < ny and col < nx. -/
structure Raster (α : Type) where
  ny : ℕ
  nx : ℕ
  data : ℕ → ℕ → α

/-- Numpy positional index resolution on an axis of length n: 0 <= i < n is
itself, -n <= i < 0 wraps to n + i, anything else raises IndexError (none). -/
def normIdx (n : ℕ) (i : ℤ) : Option ℕ :=
  if 0 ≤ i ∧ i < (n : ℤ) then some i.toNat
  else if -(n : ℤ) ≤ i ∧ i < 0 then some (i + (n : ℤ)).toNat
  else none

/-- DataArray.isel(x=ix, y=iy) with integer (possibly negative) indices;
none models a raised IndexError. -/
def Raster.isel {α : Type} (r : Raster α) (ix iy : ℤ) : Option α :=
  match normIdx r.nx ix, normIdx r.ny iy with
  | some x, some y => some (r.data y x)
  | _, _ => none

/-- The operations lookup table of generate_network.py lines 91-100, mapping a
direction code to the (row offset, column offset) pair; none models the
KeyError raised for a code outside 1..8. -/
def operations (code : ℤ) : Option (ℤ × ℤ) :=
  if code = 1 then some (-1, 0)
  else if code = 2 then some (-1, 1)
  else if code = 3 then some (0, 1)
  else if code = 4 then some (1, 1)
  else if code = 5 then some (1, 0)
  else if code = 6 then some (1, -1)
  else if code = 7 then some (0, -1)
  else if code = 8 then some (-1, -1)
  else none

/-- The while loop of generate_network.py lines 127-162. State: remaining
fuel, direction code of the current cell, current x and y indices, visited
list. One fuel unit is one loop iteration. The try block wraps only the
reservoir-raster lookup (lines 145-158); the flow-direction lookup at line 139
is outside it, so its IndexError is err, not caughtOob. -/
def traceLoop (band : Raster (Option ℤ)) (resR : Raster (Option ℕ)) :
    ℕ → ℤ → ℤ → ℤ → List (ℤ × ℤ) → TraceResult
  | 0, _, _, _, _ => TraceResult.fuelOut
  | fuel+1, code, idxx, idxy, visited =>
    match operations code with
    | none => TraceResult.err
    | some op =>
      if (idxx + op.2, idxy + op.1) ∈ visited then TraceResult.cycle
      else
        match band.isel (idxx + op.2) (idxy + op.1) with
        | none => TraceResult.err
        | some none => TraceResult.nodata
        | some (some newCode) =>
          match resR.isel (idxx + op.2) (idxy + op.1) with
          | none => TraceResult.caughtOob
          | some (some rid) => TraceResult.edge rid
          | some none =>
              traceLoop band resR fuel newCode (idxx + op.2) (idxy + op.1)
                (visited ++ [(idxx + op.2, idxy + op.1)])

/-- Lines 113-126 of generate_network.py: seed the visited list with the
snapped start cell, read its direction code, and enter the loop unless the
start value is NaN. -/
def traceNode (band : Raster (Option ℤ)) (resR : Raster (Option ℕ))
    (fuel : ℕ) (sx sy : ℤ) : TraceResult :=
  match band.isel sx sy with
  | none => TraceResult.err
  | some none => TraceResult.nodata
  | some (some code) => traceLoop band resR fuel code sx sy [(sx, sy)]

/-- Line 85 of generate_network.py: write one reservoir id into the location
raster cell (wy, wx), overwriting whatever was there. -/
def writeCell (r : Raster (Option ℕ)) (wy wx v : ℕ) : Raster (Option ℕ) :=
  ⟨r.ny, r.nx, fun y x => if y = wy ∧ x = wx then some v else r.data y x⟩

/-- The loop of generate_network.py lines 78-85: write each reservoir id at
its snapped cell in iterrows order; resid counts up from the given start. -/
def snapAll (r : Raster (Option ℕ)) : List (ℕ × ℕ) → ℕ → Raster (Option ℕ)
  | [], _ => r
  | s :: rest, resid => snapAll (writeCell r s.1 s.2 resid) rest (resid + 1)

/-- Line 77: xr.full_like(band, np.nan) - a raster of the same shape holding
no-data everywhere. -/
def emptyLike (ny nx : ℕ) : Raster (Option ℕ) :=
  ⟨ny, nx, fun _ _ => none⟩

/-- The reservoir-location raster of generate_network.py lines 77-85, indexed
by the snapped (rast_lat, rast_lon) cell of each reservoir in row order. -/
def buildResRaster (ny nx : ℕ) (snaps : List (ℕ × ℕ)) : Raster (Option ℕ) :=
  snapAll (emptyLike ny nx) snaps 0

/-- The inputs generate_network works on once files are loaded and stations
snapped: the flow-direction band (dir row col, none = NaN) and, per reservoir
in table order, the snapped (rast_lat, rast_lon) cell produced by the
get_indexer(method="nearest") calls (always in range on real data). -/
structure NetInput where
  ny : ℕ
  nx : ℕ
  dir : ℕ → ℕ → Option ℤ
  snaps : List (ℕ × ℕ)

def NetInput.band (g : NetInput) : Raster (Option ℤ) :=
  ⟨g.ny, g.nx, g.dir⟩

def NetInput.resRaster (g : NetInput) : Raster (Option ℕ) :=
  buildResRaster g.ny g.nx g.snaps

/-- Fuel sufficient for any trace: a trace can visit at most the 4 * ny * nx
raw index pairs in [-nx, nx) x [-ny, ny) before every further step either
terminates or raises (lemma traceLoop_ne_fuelOut). -/
def NetInput.fuel (g : NetInput) : ℕ := 4 * g.ny * g.nx

/-- The trace of node n: starts at its snapped cell, x = snapped column,
y = snapped row (generate_network.py lines 105-114). -/
def NetInput.traceOf (g : NetInput) (n : ℕ) : TraceResult :=
  match g.snaps.get? n with
  | none => TraceResult.err
  | some s => traceNode g.band g.resRaster g.fuel (s.2 : ℤ) (s.1 : ℤ)

/-- Does this trace outcome abort generate_network (an uncaught exception in
Python; fuelOut conservatively counts as failure as well)? -/
def traceFails : TraceResult → Bool
  | TraceResult.err => true
  | TraceResult.fuelOut => true
  | _ => false

/-- The G.add_edge(node, int(any_reservoir)) contribution of node n
(generate_network.py line 149): one directed edge from the node to the first
reservoir id its trace finds, or nothing. -/
def edgeOf (g : NetInput) (n : ℕ) : Option (ℕ × ℕ) :=
  match g.traceOf n with
  | TraceResult.edge t => some (n, t)
  | _ => none

/-- All edges of the graph G after the for-node loop, in node order. -/
def networkEdges (g : NetInput) : List (ℕ × ℕ) :=
  (List.range g.snaps.length).filterMap (edgeOf g)

/-- generate_network.py lines 102-162 as a whole: the edge list of the built
graph, or an error when any node's trace lets an exception propagate. -/
def generate_network (g : NetInput) : Except Unit (List (ℕ × ℕ)) :=
  if (List.range g.snaps.length).all (fun n => !traceFails (g.traceOf n)) then
    Except.ok (networkEdges g)
  else Except.error ()

/-! ## sarath_filtering.py -/

/-- The two assert statements at sarath_filtering.py lines 18-19, evaluated in
source order before any further processing; the error carries the assertion
message. -/
def filteringSatChecks (satellites : List String) : Except String Unit :=
  if satellites.contains "s1" || satellites.contains "sar" then
    if satellites.contains "l8" || satellites.contains "l9" || satellites.contains "s2" then
      Except.ok ()
    else Except.error "Optical data is required"
  else Except.error "SAR data is required"

/-- Line 123 of sarath_filtering.py: dev_sign = np.abs(dev / dev). On every
row the correction applies to, dev is nonzero (zero deviation is inside the
threshold band whenever the band is nonnegative), so the division matches
numpy exactly there. -/
def filt2_dev_sign (dev : ℚ) : ℚ := |dev / dev|

/-- Lower end of the filter-2 threshold band (line 108, first component). -/
def filt2_lo (a t : ℚ) : ℚ := -a * t / 100

/-- Upper end of the filter-2 threshold band (line 108, second component). -/
def filt2_hi (a t : ℚ) : ℚ := a * t / 100

/-- The outlier test of line 114: deviation outside the threshold band. -/
def filt2_outlier (a t dev : ℚ) : Bool :=
  decide (dev < filt2_lo a t) || decide (dev > filt2_hi a t)

/-- Line 124: mod_val = opt_val + dev_sign * res_nom_SA * filt_2_thresh / 100
- opt_sar_dev. -/
def filt2_mod_val (a t opt dev : ℚ) : ℚ :=
  opt + filt2_dev_sign dev * a * t / 100 - dev

/-- One row of the filter-2 pass (lines 114-126): replace WA_Optical by
mod_val on outlier rows, keep it otherwise. a = nominal area, t =
filt_2_thresh, opt = WA_Optical, dev = deviations = WA_Optical - WA_SAR. -/
def filt2_correct (a t opt dev : ℚ) : ℚ :=
  if filt2_outlier a t dev then filt2_mod_val a t opt dev else opt

/-- Modelled from the spec: the replacement value as claim C8 states it -
the optical value plus sign(deviation) times nominal area times
filt_2_thresh / 100 minus the deviation, signed toward the threshold boundary
on the same side as the deviation. -/
def filt2_claim_value (a t opt dev : ℚ) : ℚ :=
  opt + (if 0 ≤ dev then 1 else -1) * a * t / 100 - dev

/-! ## Elevation enrichment (generate_network.py lines 167-171) -/

/-- Distance between two axis values, written with a branch so that it
evaluates by rfl on concrete rationals. -/
def qdist (a b : ℚ) : ℚ := if a ≤ b then b - a else a - b

/-- Scan of the remaining axis values keeping the best (closest) position so
far; ties keep the earlier position. Models the nearest-neighbour search done
by pandas Index.get_indexer(method="nearest") for the sel call at line 170. -/
def nearestIdxAux (q : ℚ) : List ℚ → ℕ → ℕ → ℚ → ℕ
  | [], _, best, _ => best
  | a :: rest, i, best, bestd =>
    if qdist a q < bestd then nearestIdxAux q rest (i + 1) i (qdist a q)
    else nearestIdxAux q rest (i + 1) best bestd

/-- Position of the axis value nearest to the query; none only on an empty
axis. A query outside the axis range is clamped to the closest endpoint, it
does not fail. -/
def nearestIdx (axis : List ℚ) (q : ℚ) : Option ℕ :=
  match axis with
  | [] => none
  | a :: rest => some (nearestIdxAux q rest 1 0 (qdist a q))

/-- The elevation raster of lines 167-171: its two coordinate axes and the
cell values (vals row col). -/
structure ElevRaster where
  xs : List ℚ
  ys : List ℚ
  vals : ℕ → ℕ → ℚ

/-- Line 170: float(elev.sel(x=qx, y=qy, method="nearest")) - nearest cell on
each axis, then the value there. -/
def elevSample (e : ElevRaster) (qx qy : ℚ) : Option ℚ :=
  match nearestIdx e.xs qx, nearestIdx e.ys qy with
  | some xi, some yi => some (e.vals yi xi)
  | _, _ => none

/-- The set of raw index pairs (ix, iy) at which an isel on an ny-by-nx band
succeeds (possibly by negative wraparound). -/
def extCell (ny nx : ℕ) : Finset (ℤ × ℤ) :=
  Finset.Icc (-(nx : ℤ)) ((nx : ℤ) - 1) ×ˢ Finset.Icc (-(ny : ℤ)) ((ny : ℤ) - 1)

/-! ## Concrete inputs used by the claim theorems and witnesses -/

/-- 1 row, 1 column, direction code 3 (East), one reservoir at the only cell:
its trace immediately steps to column 1, off the grid on the high side. -/
def gridC1 : NetInput := ⟨1, 1, fun _ _ => some 3, [(0, 0)]⟩

/-- 1 row, 2 columns, cell 0 points East and cell 1 points West, one reservoir
at cell 0: the trace runs 0 -> 1 -> 0 and the second step hits the visited
list. -/
def gridC2 : NetInput := ⟨1, 2, fun _ x => some (if x = 0 then 3 else 7), [(0, 0)]⟩

/-- 2 rows, 2 columns, all cells W(7) except (row 1, col 0) = N(1), one
reservoir at (row 1, col 1). Every cell holds a valid code 1..8 and every
in-bounds chain walks off the grid without repeating a cell, yet the trace
wraps through raw x-indices -1 and -2 and only stops, by an uncaught
IndexError, on its fifth iteration - more than ny * nx = 4. -/
def gridC3 : NetInput := ⟨2, 2, fun y x => some (if y = 1 ∧ x = 0 then 1 else 7), [(1, 1)]⟩

/-- 1 row, 3 columns, cell 0 points East, cells 1 and 2 point West, reservoirs
at all three cells: nodes 0 and 2 both reach node 1 (two incoming edges). -/
def gridC4 : NetInput := ⟨1, 3, fun _ x => some (if x = 0 then 3 else 7), [(0, 0), (0, 1), (0, 2)]⟩

/-- 1 row, 1 column, the only cell is no-data, one reservoir there. -/
def gridC5a : NetInput := ⟨1, 1, fun _ _ => none, [(0, 0)]⟩

/-- 1 row, 2 columns, cell 0 points East, cell 1 is no-data, one reservoir at
cell 0: the trace reaches no-data mid-trace. -/
def gridC5b : NetInput := ⟨1, 2, fun _ x => if x = 0 then some 3 else none, [(0, 0)]⟩

/-- 1 row, 2 columns, both cells point West, one reservoir at cell 1: the trace
steps 1 -> 0 -> raw x-index -1, which is not in the visited list but wraps
back onto the start cell, whose location-raster entry is the node's own id. -/
def gridC9 : NetInput := ⟨1, 2, fun _ _ => some 7, [(0, 1)]⟩

/-- A 2 x 2 elevation raster on axes x, y in [0, 1], with value 11 at the cell
nearest to the out-of-extent query (100, 100) and 0 elsewhere. -/
def elevEx : ElevRaster := ⟨[0, 1], [0, 1], fun yi xi => if yi = 1 ∧ xi = 1 then 11 else 0⟩

/-! ## Helper lemmas -/

theorem generate_network_ok {g : NetInput} {edges : List (ℕ × ℕ)}
    (h : generate_network g = Except.ok edges) : edges = networkEdges g := by
  unfold generate_network at h
  split at h
  · exact (Except.ok.inj h).symm
  · exact Except.noConfusion h

theorem edgeOf_fst {g : NetInput} {n : ℕ} {p : ℕ × ℕ}
    (h : edgeOf g n = some p) : p.1 = n := by
  unfold edgeOf at h
  cases ht : g.traceOf n <;> rw [ht] at h <;> simp at h
  rw [← h]

theorem mem_networkEdges {g : NetInput} {e : ℕ × ℕ} :
    e ∈ networkEdges g ↔
      e.1 < g.snaps.length ∧ g.traceOf e.1 = TraceResult.edge e.2 := by
  unfold networkEdges
  rw [List.mem_filterMap]
  constructor
  · rintro ⟨a, ha, hfa⟩
    rw [List.mem_range] at ha
    unfold edgeOf at hfa
    cases ht : g.traceOf a <;> rw [ht] at hfa <;> simp at hfa
    rw [← hfa]
    exact ⟨ha, ht⟩
  · rintro ⟨hlt, ht⟩
    refine ⟨e.1, List.mem_range.mpr hlt, ?_⟩
    unfold edgeOf
    rw [ht]

theorem mem_filterMap_edgeOf_fst {g : NetInput} {l : List ℕ} {e : ℕ × ℕ}
    (h : e ∈ l.filterMap (edgeOf g)) : e.1 ∈ l := by
  rcases List.mem_filterMap.mp h with ⟨a, ha, hfa⟩
  rwa [edgeOf_fst hfa]

theorem filterMap_edgeOf_source_le (g : NetInput) (n : ℕ) :
    ∀ l : List ℕ, l.Nodup →
      ((l.filterMap (edgeOf g)).filter (fun e => e.1 == n)).length ≤ 1 := by
  intro l
  induction l with
  | nil => intro _; simp
  | cons a l ih =>
    intro hn
    rw [List.filterMap_cons]
    cases hfa : edgeOf g a with
    | none => exact ih (List.Nodup.of_cons hn)
    | some p =>
      rw [List.filter_cons]
      by_cases hpn : (p.1 == n) = true
      · rw [if_pos hpn]
        have hrest : (l.filterMap (edgeOf g)).filter (fun e => e.1 == n) = [] := by
          rw [List.filter_eq_nil_iff]
          intro e he hbeq
          have h1 : e.1 ∈ l := mem_filterMap_edgeOf_fst he
          have h2 : e.1 = n := by simpa using hbeq
          have h3 : p.1 = a := edgeOf_fst hfa
          have h4 : a = n := by rw [← h3]; simpa using hpn
          rw [h2, ← h4] at h1
          exact (List.nodup_cons.mp hn).1 h1
        rw [hrest]
        simp
      · rw [if_neg hpn]
        exact ih (List.Nodup.of_cons hn)

theorem networkEdges_source_le (g : NetInput) (n : ℕ) :
    ((networkEdges g).filter (fun e => e.1 == n)).length ≤ 1 :=
  filterMap_edgeOf_source_le g n _ (List.nodup_range _)

theorem networkEdges_source_zero (g : NetInput) (n : ℕ)
    (h : ∀ t, ¬ g.traceOf n = TraceResult.edge t) :
    ((networkEdges g).filter (fun e => e.1 == n)).length = 0 := by
  rw [List.length_eq_zero, List.filter_eq_nil_iff]
  intro e he hbeq
  have h1 : e.1 = n := by simpa using hbeq
  have h2 := (mem_networkEdges.mp he).2
  rw [h1] at h2
  exact h e.2 h2

theorem mem_Icc_of_normIdx {n : ℕ} {i : ℤ} {v : ℕ} (h : normIdx n i = some v) :
    -(n : ℤ) ≤ i ∧ i < (n : ℤ) := by
  unfold normIdx at h
  split_ifs at h with h1 h2
  · omega
  · omega

theorem isel_mem_extCell {α : Type} {r : Raster α} {ix iy : ℤ} {a : α}
    (h : r.isel ix iy = some a) : (ix, iy) ∈ extCell r.ny r.nx := by
  unfold Raster.isel at h
  cases hx : normIdx r.nx ix with
  | none => rw [hx] at h; exact Option.noConfusion h
  | some x =>
    cases hy : normIdx r.ny iy with
    | none => rw [hx, hy] at h; exact Option.noConfusion h
    | some y =>
      have h1 := mem_Icc_of_normIdx hx
      have h2 := mem_Icc_of_normIdx hy
      unfold extCell
      rw [Finset.mem_product, Finset.mem_Icc, Finset.mem_Icc]
      omega

theorem card_extCell (ny nx : ℕ) : (extCell ny nx).card = 4 * ny * nx := by
  unfold extCell
  rw [Finset.card_product, Int.card_Icc, Int.card_Icc]
  have hx : ((nx : ℤ) - 1 + 1 - -(nx : ℤ)).toNat = 2 * nx := by omega
  have hy : ((ny : ℤ) - 1 + 1 - -(ny : ℤ)).toNat = 2 * ny := by omega
  rw [hx, hy]
  ring

theorem length_le_of_nodup_subset {l : List (ℤ × ℤ)} {s : Finset (ℤ × ℤ)}
    (hn : l.Nodup) (hs : ∀ c ∈ l, c ∈ s) : l.length ≤ s.card := by
  calc l.length = l.toFinset.card := (List.toFinset_card_of_nodup hn).symm
  _ ≤ s.card := Finset.card_le_card (fun c hc => hs c (List.mem_toFinset.mp hc))

theorem nodup_append_single {c : ℤ × ℤ} {l : List (ℤ × ℤ)}
    (hn : l.Nodup) (hc : c ∉ l) : (l ++ [c]).Nodup := by
  rw [List.nodup_append]
  refine ⟨hn, List.nodup_singleton c, ?_⟩
  intro a ha hb
  rw [List.mem_singleton] at hb
  rw [hb] at ha
  exact hc ha

/-- The loop cannot run out of fuel once the fuel plus the number of already
visited cells exceeds the number of raw index pairs an isel can succeed on:
every iteration that continues appends a fresh pair from that finite set. -/
theorem traceLoop_ne_fuelOut (band : Raster (Option ℤ)) (resR : Raster (Option ℕ)) :
    ∀ (fuel : ℕ) (code idxx idxy : ℤ) (visited : List (ℤ × ℤ)),
      visited.Nodup → (∀ c ∈ visited, c ∈ extCell band.ny band.nx) →
      4 * band.ny * band.nx < fuel + visited.length →
      traceLoop band resR fuel code idxx idxy visited ≠ TraceResult.fuelOut := by
  intro fuel
  induction fuel with
  | zero =>
    intro code idxx idxy visited hn hm hlt
    have h1 := length_le_of_nodup_subset hn hm
    rw [card_extCell] at h1
    omega
  | succ fuel ih =>
    intro code idxx idxy visited hn hm hlt
    cases hop : operations code with
    | none => simp [traceLoop, hop]
    | some op =>
      by_cases hv : (idxx + op.2, idxy + op.1) ∈ visited
      · simp [traceLoop, hop, hv]
      · cases hb : band.isel (idxx + op.2) (idxy + op.1) with
        | none => simp [traceLoop, hop, hv, hb]
        | some cell =>
          cases cell with
          | none => simp [traceLoop, hop, hv, hb]
          | some newCode =>
            cases hr : resR.isel (idxx + op.2) (idxy + op.1) with
            | none => simp [traceLoop, hop, hv, hb, hr]
            | some rcell =>
              cases rcell with
              | some rid => simp [traceLoop, hop, hv, hb, hr]
              | none =>
                have hred : traceLoop band resR (fuel + 1) code idxx idxy visited =
                    traceLoop band resR fuel newCode (idxx + op.2) (idxy + op.1)
                      (visited ++ [(idxx + op.2, idxy + op.1)]) := by
                  simp [traceLoop, hop, hv, hb, hr]
                rw [hred]
                refine ih _ _ _ _ (nodup_append_single hn hv) ?_ ?_
                · intro c hc
                  rcases List.mem_append.mp hc with hcl | hcr
                  · exact hm c hcl
                  · rw [List.mem_singleton] at hcr
                    rw [hcr]
                    exact isel_mem_extCell hb
                · rw [List.length_append]
                  simpa using Nat.lt_of_lt_of_le hlt (by omega)

/-- With the fuel the model uses, a trace never runs out of fuel: the Python
loop always stops, by normal termination or by a raised exception. -/
theorem traceNode_ne_fuelOut (band : Raster (Option ℤ)) (resR : Raster (Option ℕ))
    (fuel : ℕ) (sx sy : ℤ) (hfuel : 4 * band.ny * band.nx ≤ fuel) :
    traceNode band resR fuel sx sy ≠ TraceResult.fuelOut := by
  unfold traceNode
  cases hb : band.isel sx sy with
  | none => simp
  | some cell =>
    cases cell with
    | none => simp
    | some code =>
      refine traceLoop_ne_fuelOut band resR fuel code sx sy [(sx, sy)]
        (List.nodup_singleton _) ?_ (by simp; omega)
      intro c hc
      rw [List.mem_singleton] at hc
      rw [hc]
      exact isel_mem_extCell hb

/-- The except IndexError handler at generate_network.py lines 159-161 is
dead code: it guards only the reservoir-raster lookup, which uses the same
indices as the flow-direction lookup that already succeeded, and the two
rasters have the same shape (xr.full_like), so that lookup can never raise. -/
theorem traceLoop_ne_caughtOob (band : Raster (Option ℤ)) (resR : Raster (Option ℕ))
    (hy : resR.ny = band.ny) (hx : resR.nx = band.nx) :
    ∀ (fuel : ℕ) (code idxx idxy : ℤ) (visited : List (ℤ × ℤ)),
      traceLoop band resR fuel code idxx idxy visited ≠ TraceResult.caughtOob := by
  intro fuel
  induction fuel with
  | zero => intro code idxx idxy visited; simp [traceLoop]
  | succ fuel ih =>
    intro code idxx idxy visited
    cases hop : operations code with
    | none => simp [traceLoop, hop]
    | some op =>
      by_cases hv : (idxx + op.2, idxy + op.1) ∈ visited
      · simp [traceLoop, hop, hv]
      · cases hb : band.isel (idxx + op.2) (idxy + op.1) with
        | none => simp [traceLoop, hop, hv, hb]
        | some cell =>
          cases cell with
          | none => simp [traceLoop, hop, hv, hb]
          | some newCode =>
            cases hr : resR.isel (idxx + op.2) (idxy + op.1) with
            | none =>
              exfalso
              unfold Raster.isel at hb hr
              rw [hy, hx] at hr
              cases hnx : normIdx band.nx (idxx + op.2) with
              | none => rw [hnx] at hb; exact Option.noConfusion hb
              | some x =>
                cases hny : normIdx band.ny (idxy + op.1) with
                | none => rw [hnx, hny] at hb; exact Option.noConfusion hb
                | some y => rw [hnx, hny] at hr; exact Option.noConfusion hr
            | some rcell =>
              cases rcell with
              | some rid => simp [traceLoop, hop, hv, hb, hr]
              | none =>
                have hred : traceLoop band resR (fuel + 1) code idxx idxy visited =
                    traceLoop band resR fuel newCode (idxx + op.2) (idxy + op.1)
                      (visited ++ [(idxx + op.2, idxy + op.1)]) := by
                  simp [traceLoop, hop, hv, hb, hr]
                rw [hred]
                exact ih _ _ _ _

theorem snapAll_data_untouched (y x : ℕ) :
    ∀ (snaps : List (ℕ × ℕ)) (r : Raster (Option ℕ)) (k : ℕ),
      (y, x) ∉ snaps → (snapAll r snaps k).data y x = r.data y x := by
  intro snaps
  induction snaps with
  | nil => intro r k _; rfl
  | cons s rest ih =>
    intro r k hns
    rw [snapAll]
    rw [ih _ _ (fun h => hns (List.mem_cons_of_mem _ h))]
    show (if y = s.1 ∧ x = s.2 then some k else r.data y x) = r.data y x
    rw [if_neg]
    rintro ⟨h1, h2⟩
    refine hns ?_
    have : (y, x) = s := by
      rw [h1, h2]
    rw [this]
    exact List.mem_cons_self _ _

theorem snapAll_data_last (c : ℕ × ℕ) :
    ∀ (snaps : List (ℕ × ℕ)) (r : Raster (Option ℕ)) (k j : ℕ) (hj : j < snaps.length),
      snaps.get ⟨j, hj⟩ = c →
      (∀ l (hl : l < snaps.length), j < l → snaps.get ⟨l, hl⟩ ≠ c) →
      (snapAll r snaps k).data c.1 c.2 = some (k + j) := by
  intro snaps
  induction snaps with
  | nil =>
    intro r k j hj
    exact absurd hj (by simp)
  | cons s rest ih =>
    intro r k j hj hget hlast
    match j with
    | 0 =>
      have hs : s = c := hget
      have hcrest : c ∉ rest := by
        intro hmem
        obtain ⟨⟨i, hi⟩, hgi⟩ := List.mem_iff_get.mp hmem
        exact hlast (i + 1) (by simpa using Nat.succ_lt_succ hi) (Nat.succ_pos i)
          (by simpa using hgi)
      rw [snapAll]
      have hcc : (c.1, c.2) ∉ rest := by
        rw [Prod.mk.eta]
        exact hcrest
      rw [snapAll_data_untouched _ _ _ _ _ hcc, hs]
      show (if c.1 = c.1 ∧ c.2 = c.2 then some k else r.data c.1 c.2) = some (k + 0)
      rw [if_pos ⟨rfl, rfl⟩]
      rfl
    | j' + 1 =>
      rw [snapAll]
      have hj' : j' < rest.length := Nat.lt_of_succ_lt_succ hj
      have hget' : rest.get ⟨j', hj'⟩ = c := hget
      have hlast' : ∀ l (hl : l < rest.length), j' < l → rest.get ⟨l, hl⟩ ≠ c := by
        intro l hl hlt
        exact hlast (l + 1) (by simpa using Nat.succ_lt_succ hl) (Nat.succ_lt_succ hlt)
      have := ih (writeCell r s.1 s.2 k) (k + 1) j' hj' hget' hlast'
      rw [this]
      congr 1
      omega

theorem nearestIdxAux_le_all (q : ℚ) :
    ∀ (rest : List ℚ) (i best : ℕ) (bestd : ℚ),
      (nearestIdxAux q rest i best bestd = best ∧
        ∀ k, k < rest.length → bestd ≤ qdist (rest.getD k 0) q) ∨
      (∃ k, k < rest.length ∧ nearestIdxAux q rest i best bestd = i + k ∧
        qdist (rest.getD k 0) q ≤ bestd ∧
        ∀ k', k' < rest.length → qdist (rest.getD k 0) q ≤ qdist (rest.getD k' 0) q) := by
  intro rest
  induction rest with
  | nil =>
    intro i best bestd
    left
    refine ⟨rfl, ?_⟩
    intro k hk
    simp at hk
  | cons a rest ih =>
    intro i best bestd
    rw [nearestIdxAux]
    by_cases hlt : qdist a q < bestd
    · rw [if_pos hlt]
      rcases ih (i + 1) i (qdist a q) with ⟨heq, hall⟩ | ⟨k, hk, heq, hle, hall⟩
      · right
        refine ⟨0, by simp, by simpa using heq, le_of_lt hlt, ?_⟩
        intro k' hk'
        match k' with
        | 0 => simp
        | k'' + 1 =>
          rw [List.getD_cons_succ, List.getD_cons_zero]
          exact hall k'' (by simpa using Nat.lt_of_succ_lt_succ hk')
      · right
        refine ⟨k + 1, by simpa using Nat.succ_lt_succ hk, ?_, ?_, ?_⟩
        · rw [heq]; omega
        · rw [List.getD_cons_succ]
          exact le_of_lt (lt_of_le_of_lt hle hlt)
        · intro k' hk'
          match k' with
          | 0 =>
            rw [List.getD_cons_succ, List.getD_cons_zero]
            exact hle
          | k'' + 1 =>
            rw [List.getD_cons_succ, List.getD_cons_succ]
            exact hall k'' (Nat.lt_of_succ_lt_succ hk')
    · rw [if_neg hlt]
      have hge : bestd ≤ qdist a q := le_of_not_lt hlt
      rcases ih (i + 1) best bestd with ⟨heq, hall⟩ | ⟨k, hk, heq, hle, hall⟩
      · left
        refine ⟨heq, ?_⟩
        intro k hk
        match k with
        | 0 => simpa using hge
        | k'' + 1 =>
          rw [List.getD_cons_succ]
          exact hall k'' (Nat.lt_of_succ_lt_succ hk)
      · right
        refine ⟨k + 1, by simpa using Nat.succ_lt_succ hk, ?_, ?_, ?_⟩
        · rw [heq]; omega
        · rw [List.getD_cons_succ]
          exact hle
        · intro k' hk'
          match k' with
          | 0 =>
            rw [List.getD_cons_succ, List.getD_cons_zero]
            exact le_trans hle hge
          | k'' + 1 =>
            rw [List.getD_cons_succ, List.getD_cons_succ]
            exact hall k'' (Nat.lt_of_succ_lt_succ hk')

theorem nearestIdx_min (axis : List ℚ) (q : ℚ) (h : axis ≠ []) :
    ∃ i, nearestIdx axis q = some i ∧ i < axis.length ∧
      ∀ j, j < axis.length → qdist (axis.getD i 0) q ≤ qdist (axis.getD j 0) q := by
  match axis with
  | [] => exact absurd rfl h
  | a :: rest =>
    rw [nearestIdx]
    rcases nearestIdxAux_le_all q rest 1 0 (qdist a q) with ⟨heq, hall⟩ | ⟨k, hk, heq, hle, hall⟩
    · refine ⟨0, by rw [heq], by simp, ?_⟩
      intro j hj
      match j with
      | 0 => simp
      | j' + 1 =>
        rw [List.getD_cons_succ, List.getD_cons_zero]
        exact hall j' (Nat.lt_of_succ_lt_succ hj)
    · refine ⟨1 + k, by rw [heq], by simp only [List.length_cons]; omega, ?_⟩
      have h1k : 1 + k = k + 1 := by omega
      intro j hj
      rw [h1k, List.getD_cons_succ]
      match j with
      | 0 =>
        rw [List.getD_cons_zero]
        exact hle
      | j' + 1 =>
        rw [List.getD_cons_succ]
        exact hall j' (Nat.lt_of_succ_lt_succ hj)

/-! ## The claims -/

/-- C1: the claim says stepping off the grid is caught internally and converted
to trace termination with no edge, never propagating to the caller. The code
does the opposite: the flow-direction lookup (line 139) runs before the guarded
reservoir-raster lookup and is outside the try block, so on gridC1 the trace
raises an uncaught IndexError and generate_network fails. -/
theorem c1_out_of_range_uncaught :
    NetInput.traceOf gridC1 0 = TraceResult.err ∧
    generate_network gridC1 = Except.error () :=
  ⟨rfl, rfl⟩

/-- C2: whenever the cell computed from the current direction code is already
in the visited list, the loop returns cycle at once - before any raster
lookup - and a node whose trace ends in cycle contributes no outgoing edge to
the graph generate_network returns. -/
theorem c2_cycle_check_terminates :
    (∀ (band : Raster (Option ℤ)) (resR : Raster (Option ℕ)) (fuel : ℕ)
        (code idxx idxy : ℤ) (visited : List (ℤ × ℤ)) (op : ℤ × ℤ),
        operations code = some op →
        (idxx + op.2, idxy + op.1) ∈ visited →
        traceLoop band resR (fuel + 1) code idxx idxy visited = TraceResult.cycle) ∧
    (∀ (g : NetInput) (edges : List (ℕ × ℕ)) (n : ℕ),
        generate_network g = Except.ok edges → g.traceOf n = TraceResult.cycle →
        (edges.filter (fun e => e.1 == n)).length = 0) := by
  constructor
  · intro band resR fuel code idxx idxy visited op hop hv
    simp [traceLoop, hop, hv]
  · intro g edges n hok hc
    rw [generate_network_ok hok]
    refine networkEdges_source_zero g n ?_
    intro t ht
    rw [hc] at ht
    exact TraceResult.noConfusion ht

/-- Witness for C2 on gridC2: the step from cell (1, 0) with code W lands on
the already-visited start cell, the loop reports cycle, and node 0 has zero
outgoing edges. -/
theorem c2_cycle_check_witness :
    traceLoop gridC2.band gridC2.resRaster 1 7 1 0 [(0, 0), (1, 0)] = TraceResult.cycle ∧
    ((networkEdges gridC2).filter (fun e => e.1 == 0)).length = 0 := by
  constructor
  · exact c2_cycle_check_terminates.1 gridC2.band gridC2.resRaster 0 7 1 0
      [(0, 0), (1, 0)] (0, -1) rfl (by decide)
  · exact c2_cycle_check_terminates.2 gridC2 (networkEdges gridC2) 0 rfl rfl

/-- C3: the claim bounds every trace by ny * nx iterations on grids of valid
codes with no in-bounds cycle. On gridC3 (all codes valid, every in-bounds
chain exits the grid without repeating) the trace is still running after
ny * nx = 4 iterations - negative raw indices wrap instead of terminating -
and with enough fuel it ends in an uncaught IndexError on iteration 5. The
last conjunct checks that every cell of gridC3 holds a valid code 1..8. -/
theorem c3_iteration_bound_exceeded :
    traceNode gridC3.band gridC3.resRaster (2 * 2) 1 1 = TraceResult.fuelOut ∧
    NetInput.traceOf gridC3 0 = TraceResult.err ∧
    ((List.range 2).all fun y => (List.range 2).all fun x =>
      match gridC3.dir y x with
      | some cd => decide ((1 : ℤ) ≤ cd) && decide (cd ≤ 8)
      | none => false) = true :=
  ⟨rfl, rfl, rfl⟩

/-- C4: in any graph generate_network returns, each node has at most one
outgoing edge, and every edge runs from its origin node to the reservoir id
that node's trace found; a node can still have two incoming edges, as on
gridC4 where nodes 0 and 2 both point at node 1. -/
theorem c4_at_most_one_outgoing :
    (∀ (g : NetInput) (edges : List (ℕ × ℕ)),
        generate_network g = Except.ok edges →
        (∀ n : ℕ, (edges.filter (fun e => e.1 == n)).length ≤ 1) ∧
        (∀ e ∈ edges, e.1 < g.snaps.length ∧ g.traceOf e.1 = TraceResult.edge e.2)) ∧
    (∃ edges : List (ℕ × ℕ),
        generate_network gridC4 = Except.ok edges ∧
        2 ≤ (edges.filter (fun e => e.2 == 1)).length) := by
  constructor
  · intro g edges hok
    constructor
    · intro n
      rw [generate_network_ok hok]
      exact networkEdges_source_le g n
    · intro e he
      rw [generate_network_ok hok] at he
      exact mem_networkEdges.mp he
  · exact ⟨[(0, 1), (1, 0), (2, 1)], rfl, by decide⟩

/-- Witness for C4 on gridC4: node 0 of the returned edge list has at most one
outgoing edge. -/
theorem c4_at_most_one_outgoing_witness :
    (([(0, 1), (1, 0), (2, 1)] : List (ℕ × ℕ)).filter (fun e => e.1 == 0)).length ≤ 1 :=
  (c4_at_most_one_outgoing.1 gridC4 [(0, 1), (1, 0), (2, 1)] rfl).1 0

/-- C5: a no-data start cell ends the trace before the loop runs, a no-data
cell reached mid-trace ends the loop at that step (before the reservoir
lookup), and a node whose trace ends in nodata contributes no outgoing edge. -/
theorem c5_nodata_terminates :
    (∀ (band : Raster (Option ℤ)) (resR : Raster (Option ℕ)) (fuel : ℕ) (sx sy : ℤ),
        band.isel sx sy = some none →
        traceNode band resR fuel sx sy = TraceResult.nodata) ∧
    (∀ (band : Raster (Option ℤ)) (resR : Raster (Option ℕ)) (fuel : ℕ)
        (code idxx idxy : ℤ) (visited : List (ℤ × ℤ)) (op : ℤ × ℤ),
        operations code = some op →
        (idxx + op.2, idxy + op.1) ∉ visited →
        band.isel (idxx + op.2) (idxy + op.1) = some none →
        traceLoop band resR (fuel + 1) code idxx idxy visited = TraceResult.nodata) ∧
    (∀ (g : NetInput) (edges : List (ℕ × ℕ)) (n : ℕ),
        generate_network g = Except.ok edges → g.traceOf n = TraceResult.nodata →
        (edges.filter (fun e => e.1 == n)).length = 0) := by
  refine ⟨?_, ?_, ?_⟩
  · intro band resR fuel sx sy hb
    unfold traceNode
    rw [hb]
  · intro band resR fuel code idxx idxy visited op hop hv hb
    simp [traceLoop, hop, hv, hb]
  · intro g edges n hok hc
    rw [generate_network_ok hok]
    refine networkEdges_source_zero g n ?_
    intro t ht
    rw [hc] at ht
    exact TraceResult.noConfusion ht

/-- Witness for C5: a no-data start cell (gridC5a), a no-data cell one step
into the trace (gridC5b), and the resulting absence of outgoing edges. -/
theorem c5_nodata_witness :
    traceNode gridC5a.band gridC5a.resRaster 4 0 0 = TraceResult.nodata ∧
    traceLoop gridC5b.band gridC5b.resRaster 1 3 0 0 [(0, 0)] = TraceResult.nodata ∧
    ((networkEdges gridC5b).filter (fun e => e.1 == 0)).length = 0 := by
  refine ⟨?_, ?_, ?_⟩
  · exact c5_nodata_terminates.1 gridC5a.band gridC5a.resRaster 4 0 0 rfl
  · exact c5_nodata_terminates.2.1 gridC5b.band gridC5b.resRaster 0 3 0 0
      [(0, 0)] (0, 1) rfl (by decide) rfl
  · exact c5_nodata_terminates.2.2 gridC5b (networkEdges gridC5b) 0 rfl rfl

/-- C6: the reservoir-location raster keeps, at each snapped cell, the id of
the last reservoir in table order that snapped there (each write at line 85
overwrites the cell), and a cell holds at most one id. -/
theorem c6_overwrite_last :
    (∀ (ny nx : ℕ) (snaps : List (ℕ × ℕ)) (c : ℕ × ℕ) (j : ℕ) (hj : j < snaps.length),
        snaps.get ⟨j, hj⟩ = c →
        (∀ l (hl : l < snaps.length), j < l → snaps.get ⟨l, hl⟩ ≠ c) →
        (buildResRaster ny nx snaps).data c.1 c.2 = some j) ∧
    (∀ (ny nx : ℕ) (snaps : List (ℕ × ℕ)) (y x k k' : ℕ),
        (buildResRaster ny nx snaps).data y x = some k →
        (buildResRaster ny nx snaps).data y x = some k' → k = k') := by
  constructor
  · intro ny nx snaps c j hj hget hlast
    have h := snapAll_data_last c snaps (emptyLike ny nx) 0 j hj hget hlast
    simpa using h
  · intro ny nx snaps y x k k' h1 h2
    rw [h1] at h2
    exact Option.some.inj h2

/-- Witness for C6: reservoirs 0 and 1 both snap to cell (0, 0) of a 2 x 2
grid; the raster keeps id 1, the later one. -/
theorem c6_overwrite_last_witness :
    (buildResRaster 2 2 [(0, 0), (0, 0)]).data 0 0 = some 1 :=
  c6_overwrite_last.1 2 2 [(0, 0), (0, 0)] (0, 0) 1 (by decide) rfl
    (fun l hl hgt => by
      simp only [List.length_cons, List.length_nil] at hl
      omega)

/-- C7 (amended): sampling the elevation raster with method nearest never
fails on nonempty axes - a query outside the extent included - because the
nearest-position lookup returns the position whose axis value minimises the
distance to the query, clamping to an endpoint beyond the range. -/
theorem c7_nearest_clamps (e : ElevRaster) (qx qy : ℚ)
    (hx : e.xs ≠ []) (hy : e.ys ≠ []) :
    ∃ xi yi, xi < e.xs.length ∧ yi < e.ys.length ∧
      elevSample e qx qy = some (e.vals yi xi) ∧
      (∀ j, j < e.xs.length → qdist (e.xs.getD xi 0) qx ≤ qdist (e.xs.getD j 0) qx) ∧
      (∀ j, j < e.ys.length → qdist (e.ys.getD yi 0) qy ≤ qdist (e.ys.getD j 0) qy) := by
  obtain ⟨xi, hxi, hxlen, hxmin⟩ := nearestIdx_min e.xs qx hx
  obtain ⟨yi, hyi, hylen, hymin⟩ := nearestIdx_min e.ys qy hy
  refine ⟨xi, yi, hxlen, hylen, ?_, hxmin, hymin⟩
  unfold elevSample
  rw [hxi, hyi]

/-- Counterexample to C7 as stated: the query (100, 100) lies outside the
extent of elevEx (both axes live in [0, 1]), yet the sample does not fail:
it returns the value of the nearest (corner) cell. -/
theorem c7_out_of_extent_no_error :
    elevSample elevEx 100 100 = some 11 ∧
    elevSample elevEx 100 100 ≠ none ∧
    (∀ a ∈ [(0 : ℚ), 1], a < 100) := by
  have h1 : elevSample elevEx 100 100 = some 11 := by
    norm_num [elevSample, elevEx, nearestIdx, nearestIdxAux, qdist]
  refine ⟨h1, ?_, ?_⟩
  · rw [h1]
    exact fun h => Option.noConfusion h
  · intro a ha
    rcases List.mem_cons.mp ha with h | h
    · rw [h]; norm_num
    · rw [List.mem_singleton.mp h]; norm_num

/-- Witness for C7 on elevEx with the out-of-extent query (100, 100). -/
theorem c7_nearest_clamps_witness :
    ∃ xi yi, xi < elevEx.xs.length ∧ yi < elevEx.ys.length ∧
      elevSample elevEx 100 100 = some (elevEx.vals yi xi) ∧
      (∀ j, j < elevEx.xs.length →
        qdist (elevEx.xs.getD xi 0) 100 ≤ qdist (elevEx.xs.getD j 0) 100) ∧
      (∀ j, j < elevEx.ys.length →
        qdist (elevEx.ys.getD yi 0) 100 ≤ qdist (elevEx.ys.getD j 0) 100) :=
  c7_nearest_clamps elevEx 100 100 (List.cons_ne_nil _ _) (List.cons_ne_nil _ _)

/-- C8: on the row with nominal area 100, threshold 5 percent, optical 10 and
SAR 20 (deviation -10, an outlier below the band), the code computes
dev_sign = np.abs(dev / dev) = +1 - not sign(dev) = -1 - and replaces the
optical value with 25 = SAR + 5, the boundary on the opposite side of the
deviation; the claim requires 15 = SAR - 5. -/
theorem c8_dev_sign_wrong_side :
    filt2_outlier 100 5 (-10) = true ∧
    filt2_dev_sign (-10) = 1 ∧
    filt2_correct 100 5 10 (-10) = 25 ∧
    filt2_claim_value 100 5 10 (-10) = 15 ∧
    filt2_correct 100 5 10 (-10) ≠ filt2_claim_value 100 5 10 (-10) := by
  have houtlier : filt2_outlier 100 5 (-10) = true := by
    rw [filt2_outlier]
    norm_num [filt2_lo, filt2_hi]
  have hsign : filt2_dev_sign (-10) = 1 := by
    rw [filt2_dev_sign]
    norm_num
  have hcode : filt2_correct 100 5 10 (-10) = 25 := by
    rw [filt2_correct, if_pos houtlier, filt2_mod_val, hsign]
    norm_num
  have hclaim : filt2_claim_value 100 5 10 (-10) = 15 := by
    rw [filt2_claim_value]
    norm_num
  refine ⟨houtlier, hsign, hcode, hclaim, ?_⟩
  rw [hcode, hclaim]
  norm_num

/-- C9: the claim says the graph never contains a self-loop because the start
cell sits in the visited list and the visited check precedes the raster
lookup. On gridC9 the trace reaches raw index (-1, 0), which is absent from
the visited list but wraps onto the start cell, and generate_network returns
the self-loop edge (0, 0). -/
theorem c9_self_loop_added :
    generate_network gridC9 = Except.ok [(0, 0)] ∧
    NetInput.traceOf gridC9 0 = TraceResult.edge 0 :=
  ⟨rfl, rfl⟩

/-- C10: the two asserts at the head of filtering pass exactly when the
satellites list has a SAR source (s1 or sar) and an optical source (l8, l9 or
s2); with no SAR source the first assert fires with its message, with SAR but
no optical source the second fires, both before any processing. -/
theorem c10_satellite_checks :
    (∀ satellites : List String,
        filteringSatChecks satellites = Except.ok () ↔
          (("s1" ∈ satellites ∨ "sar" ∈ satellites) ∧
            ("l8" ∈ satellites ∨ "l9" ∈ satellites ∨ "s2" ∈ satellites))) ∧
    (∀ satellites : List String,
        ¬("s1" ∈ satellites ∨ "sar" ∈ satellites) →
          filteringSatChecks satellites = Except.error "SAR data is required") ∧
    (∀ satellites : List String,
        ("s1" ∈ satellites ∨ "sar" ∈ satellites) →
        ¬("l8" ∈ satellites ∨ "l9" ∈ satellites ∨ "s2" ∈ satellites) →
          filteringSatChecks satellites = Except.error "Optical data is required") := by
  have hsar : ∀ l : List String,
      (l.contains "s1" || l.contains "sar") = true ↔ ("s1" ∈ l ∨ "sar" ∈ l) := by
    intro l
    rw [Bool.or_eq_true, List.elem_iff, List.elem_iff]
  have hopt : ∀ l : List String,
      (l.contains "l8" || l.contains "l9" || l.contains "s2") = true ↔
        ("l8" ∈ l ∨ "l9" ∈ l ∨ "s2" ∈ l) := by
    intro l
    rw [Bool.or_eq_true, Bool.or_eq_true, List.elem_iff, List.elem_iff, List.elem_iff,
      or_assoc]
  refine ⟨?_, ?_, ?_⟩
  · intro satellites
    unfold filteringSatChecks
    split_ifs with h1 h2
    · constructor
      · intro _
        exact ⟨(hsar _).mp h1, (hopt _).mp h2⟩
      · intro _
        rfl
    · constructor
      · intro h
        exact h.elim
      · rintro ⟨_, ho⟩
        exact absurd ((hopt _).mpr ho) h2
    · constructor
      · intro h
        exact h.elim
      · rintro ⟨hs, _⟩
        exact absurd ((hsar _).mpr hs) h1
  · intro satellites hno
    unfold filteringSatChecks
    rw [if_neg (fun h => hno ((hsar _).mp h))]
  · intro satellites hyes hno
    unfold filteringSatChecks
    rw [if_pos ((hsar _).mpr hyes), if_neg (fun h => hno ((hopt _).mp h))]

/-- Witness for C10: with only l8 the SAR assert fires, with only s1 the
optical assert fires, and with s1 and l8 both checks pass. -/
theorem c10_satellite_checks_witness :
    filteringSatChecks ["l8"] = Except.error "SAR data is required" ∧
    filteringSatChecks ["s1"] = Except.error "Optical data is required" ∧
    filteringSatChecks ["s1", "l8"] = Except.ok () := by
  refine ⟨?_, ?_, ?_⟩
  · exact c10_satellite_checks.2.1 ["l8"] (by decide)
  · exact c10_satellite_checks.2.2 ["s1"] (by decide) (by decide)
  · exact (c10_satellite_checks.1 ["s1", "l8"]).mpr ⟨by decide, by decide⟩

end Resorr
